import Mathlib

/-!
Verification development for the ticketing-platform reservation coordinator.

The definitions below are a shallow embedding of the booking/event services:
`BookingService.createBooking` / `cancelBooking` (booking.service),
`EventService.updateEvent` / `deleteEvent` (event.service),
`EventAvailabilityService.getAvailability` (event-availability.service),
the Redis `CacheService` wrapper (redis.client), the idempotency middleware,
`generateTicketNumber` (shared utils), and the soft-delete query hooks of the
Event and Booking Mongoose models.

The store is modelled per resource: one capacity record (the Event document)
and an append-only list of booking documents whose MongoDB object id is the
position at which the document was inserted.  MongoDB's atomic
`findOneAndUpdate` with a `$gte` guard is modelled as a single state
transition; a concurrent execution is an interleaving of such store-level
steps.
-/

namespace Ticketing

/-! ## Decimal rendering and `generateTicketNumber` (packages/shared/src/utils) -/

/-- The decimal digit character for `d` (`d < 10`); models JavaScript
`Number.prototype.toString` digit output. -/
def natDigitChar (d : Nat) : Char :=
  match d with
  | 0 => '0' | 1 => '1' | 2 => '2' | 3 => '3' | 4 => '4'
  | 5 => '5' | 6 => '6' | 7 => '7' | 8 => '8' | _ => '9'

/-- Most-significant-first decimal digits of `n`, with explicit fuel so the
definition is structural and kernel-reducible.  `natToDecChars` supplies
adequate fuel. -/
def natToDecCharsFuel : Nat → Nat → List Char
  | 0, _ => []
  | fuel + 1, n =>
    if n < 10 then [natDigitChar n]
    else natToDecCharsFuel fuel (n / 10) ++ [natDigitChar (n % 10)]

/-- Decimal digit string of `n`, as produced by `sequence.toString()`. -/
def natToDecChars (n : Nat) : List Char :=
  natToDecCharsFuel (n + 1) n

/-- Models `String.prototype.padStart(6, '0')`. -/
def padStart6 (cs : List Char) : List Char :=
  List.replicate (6 - cs.length) '0' ++ cs

/-- Models `generateTicketNumber(eventId, sequence)` from the shared utils:
`TKT-` + short event id + `-` + zero-padded decimal sequence. -/
def generateTicketNumber (eventShortId : String) (sequence : Nat) : String :=
  "TKT-" ++ eventShortId ++ "-" ++ String.mk (padStart6 (natToDecChars sequence))

/-! ### Injectivity of the ticket code in the sequence number -/

/-- Value of a digit character. -/
def charDigitVal (c : Char) : Nat := c.toNat - 48

/-- Left fold reading a decimal digit list back to a number, starting from
accumulator `a`. -/
def decValFrom (a : Nat) (cs : List Char) : Nat :=
  cs.foldl (fun acc c => 10 * acc + charDigitVal c) a

theorem charDigitVal_natDigitChar (d : Nat) (hd : d < 10) :
    charDigitVal (natDigitChar d) = d := by
  interval_cases d <;> rfl

theorem decValFrom_append (a : Nat) (l m : List Char) :
    decValFrom a (l ++ m) = decValFrom (decValFrom a l) m := by
  simp [decValFrom, List.foldl_append]

theorem decValFrom_natToDecCharsFuel (fuel : Nat) :
    ∀ n, n < fuel → decValFrom 0 (natToDecCharsFuel fuel n) = n := by
  induction fuel with
  | zero => intro n hn; omega
  | succ fuel ih =>
    intro n hn
    by_cases h10 : n < 10
    · simp [natToDecCharsFuel, h10, decValFrom, charDigitVal_natDigitChar n h10]
    · have hdiv : n / 10 < fuel := by omega
      simp only [natToDecCharsFuel, if_neg h10, decValFrom_append, ih (n / 10) hdiv]
      have : n % 10 < 10 := Nat.mod_lt _ (by omega)
      simp [decValFrom, charDigitVal_natDigitChar _ this]
      omega

theorem decValFrom_natToDecChars (n : Nat) :
    decValFrom 0 (natToDecChars n) = n :=
  decValFrom_natToDecCharsFuel (n + 1) n (Nat.lt_succ_self n)

theorem decValFrom_replicate_zero (k : Nat) :
    decValFrom 0 (List.replicate k '0') = 0 := by
  induction k with
  | zero => rfl
  | succ k ih =>
    simpa [List.replicate_succ, decValFrom, charDigitVal] using ih

theorem decValFrom_padStart6 (n : Nat) :
    decValFrom 0 (padStart6 (natToDecChars n)) = n := by
  rw [padStart6, decValFrom_append, decValFrom_replicate_zero,
    decValFrom_natToDecChars]

theorem generateTicketNumber_inj (s : String) {a b : Nat}
    (h : generateTicketNumber s a = generateTicketNumber s b) : a = b := by
  have hdata : ("TKT-" ++ s ++ "-").data ++ padStart6 (natToDecChars a)
      = ("TKT-" ++ s ++ "-").data ++ padStart6 (natToDecChars b) := by
    have h2 : ("TKT-" ++ s ++ "-" ++ String.mk (padStart6 (natToDecChars a))).data
        = ("TKT-" ++ s ++ "-" ++ String.mk (padStart6 (natToDecChars b))).data := by
      unfold generateTicketNumber at h
      rw [show "TKT-" ++ s ++ "-" ++ String.mk (padStart6 (natToDecChars a))
            = ("TKT-" ++ s ++ "-") ++ String.mk (padStart6 (natToDecChars a)) by
          simp [String.append_assoc],
        show "TKT-" ++ s ++ "-" ++ String.mk (padStart6 (natToDecChars b))
            = ("TKT-" ++ s ++ "-") ++ String.mk (padStart6 (natToDecChars b)) by
          simp [String.append_assoc]] at h
      rw [h]
    simpa [String.data_append] using h2
  have hpad := List.append_cancel_left hdata
  have := decValFrom_padStart6 a
  rw [hpad, decValFrom_padStart6 b] at this
  omega

/-! ## Data model (core/models/Event.model, core/models/Booking.model) -/

/-- Booking status enum (shared booking types). -/
inductive BookingStatus
  | pending
  | confirmed
  | cancelled
  | expired
deriving DecidableEq, Repr

/-- The Event document: the per-resource capacity record.  `shortId` stands
for `_id.toString().slice(-6).toUpperCase()`, the fragment used in ticket
numbers.  `deletedAt` is the soft-delete marker. -/
structure EventRec where
  shortId : String
  totalTickets : Int
  availableTickets : Int
  version : Nat
  deletedAt : Option Nat
deriving DecidableEq, Repr

/-- A Booking document.  In this system one booking document represents one
ticket; its MongoDB object id is modelled as the list position at which the
document was inserted (`id`). -/
structure BookingRec where
  id : Nat
  userId : Nat
  ticketNumber : String
  status : BookingStatus
  idempotencyKey : String
  cancelledAt : Option Nat
  cancellationReason : Option String
  deletedAt : Option Nat
deriving DecidableEq, Repr

/-- The store state for one resource: its Event document and the append-only
collection of its Booking documents. -/
structure St where
  event : EventRec
  bookings : List BookingRec
deriving DecidableEq, Repr

/-- Error taxonomy: the app-error classes thrown by the services, plus
`storeErr` for raw store/driver failures (for example the E11000
duplicate-key error raised by a unique index). -/
inductive AppErr
  | notFound (resource : String)
  | conflict (msg : String)
  | validation (msg : String)
  | storeErr (msg : String)
deriving DecidableEq, Repr

deriving instance DecidableEq for Except

/-! ## Soft-delete query hooks (the Mongoose `pre` find hooks)

Both schemas register a hook on every operation whose name starts with
`find` that adds `deletedAt: null` to the filter unless the query option
`includeDeleted` is set. -/

/-- The filter actually executed by a Booking find-type query: the caller's
condition plus the hook's `deletedAt: null` clause unless `includeDeleted`. -/
def preFindFilter (includeDeleted : Bool) (p : BookingRec → Bool) :
    BookingRec → Bool :=
  fun b => p b && (includeDeleted || b.deletedAt == none)

/-- `Booking.find(p)` with the soft-delete hook applied. -/
def bkFindAll (bs : List BookingRec) (includeDeleted : Bool)
    (p : BookingRec → Bool) : List BookingRec :=
  bs.filter (preFindFilter includeDeleted p)

/-- `Booking.findOne(p)` with the soft-delete hook applied. -/
def bkFindOne (bs : List BookingRec) (includeDeleted : Bool)
    (p : BookingRec → Bool) : Option BookingRec :=
  bs.find? (preFindFilter includeDeleted p)

/-- `Booking.findById(i)` with the soft-delete hook applied: the document at
position `i`, if present and not soft-deleted. -/
def bkFindById (bs : List BookingRec) (i : Nat) : Option BookingRec :=
  match bs.get? i with
  | some b => if b.deletedAt = none then some b else none
  | none => none

/-- `Event.findById` with the soft-delete hook applied (single-resource
model: the filter is on the one event document). -/
def evFindById (e : EventRec) (includeDeleted : Bool) : Option EventRec :=
  if includeDeleted || e.deletedAt == none then some e else none

/-- `Booking.countDocuments({eventId})`: counts every document; `count`
operations do not trigger the `pre` find hook, so soft-deleted and cancelled
documents are included. -/
def bkCount (bs : List BookingRec) : Nat := bs.length

/-! ## Store-level atomic operations on the capacity record -/

/-- `Event.findOneAndUpdate({_id, availableTickets: {$gte: quantity},
deletedAt: null}, {$inc: {availableTickets: -quantity, version: 1}})` —
the single compare-and-swap of the reservation path: the decrement applies
exactly when the guard holds, else the update matches nothing. -/
def atomicDecrementTickets (e : EventRec) (quantity : Nat) : Option EventRec :=
  if e.deletedAt = none ∧ (quantity : Int) ≤ e.availableTickets then
    some { e with
      availableTickets := e.availableTickets - quantity,
      version := e.version + 1 }
  else none

/-- `Event.findByIdAndUpdate(id, {$inc: {availableTickets: quantity,
version: 1}})` — the unconditional increment used by rollback and by
cancellation.  Being a find-type operation it carries the soft-delete hook:
a soft-deleted event matches nothing and stays unchanged. -/
def incTickets (e : EventRec) (quantity : Nat) : EventRec :=
  if e.deletedAt = none then
    { e with
      availableTickets := e.availableTickets + quantity,
      version := e.version + 1 }
  else e

/-- Unique-index check performed by the store on booking insert:
`idempotencyKey` and `ticketNumber` both carry `unique: true` indexes
spanning every document. -/
def violatesUniqueIndex (bs : List BookingRec) (b : BookingRec) : Bool :=
  bs.any (fun x => x.idempotencyKey == b.idempotencyKey) ||
  bs.any (fun x => x.ticketNumber == b.ticketNumber)

/-- `booking.save()` on a new document: fails with the duplicate-key store
error when a unique index is violated, otherwise appends the document. -/
def insertBooking (bs : List BookingRec) (b : BookingRec) :
    Except AppErr (List BookingRec) :=
  if violatesUniqueIndex bs b then Except.error (AppErr.storeErr "duplicate key")
  else Except.ok (bs ++ [b])

/-- `Booking.insertMany(bookings, {session})` inside the transaction:
inserts in order, aborting on the first unique-index violation. -/
def insertManyBookings (bs : List BookingRec) :
    List BookingRec → Except AppErr (List BookingRec)
  | [] => Except.ok bs
  | b :: rest =>
    match insertBooking bs b with
    | Except.ok bs' => insertManyBookings bs' rest
    | Except.error e => Except.error e

/-! ## BookingService (modules/bookings/booking.service) -/

/-- A freshly constructed Booking document (`new BookingModel({...})` with
`status: BookingStatus.CONFIRMED`). -/
def mkBooking (id userId : Nat) (ticketNumber idempotencyKey : String) :
    BookingRec :=
  { id := id
    userId := userId
    ticketNumber := ticketNumber
    status := BookingStatus.confirmed
    idempotencyKey := idempotencyKey
    cancelledAt := none
    cancellationReason := none
    deletedAt := none }

/-- `createSingleBooking` (the fast path for quantity 1): reads the booking
count, derives the ticket number from count + 1, and saves one confirmed
document.  `fault` injects a store failure at the save, modelling "step 4
fails for any reason".  Returns the booking (as `getBookingById` would) and
the new collection. -/
def createSingleBooking (st : St) (userId : Nat) (key : String)
    (fault : Bool) : Except AppErr (BookingRec × List BookingRec) :=
  let n := bkCount st.bookings
  let b := mkBooking st.bookings.length userId
    (generateTicketNumber st.event.shortId (n + 1)) key
  if fault then Except.error (AppErr.storeErr "injected failure")
  else
    match insertBooking st.bookings b with
    | Except.ok bs' => Except.ok (b, bs')
    | Except.error e => Except.error e

/-- The per-ticket documents built by `createMultipleBookings`: ticket `i`
gets sequence `count + i + 1` and the suffixed idempotency key
`idempotencyKey-i`. -/
def mkMultiBookings (baseId userId : Nat) (shortId key : String)
    (n quantity : Nat) : List BookingRec :=
  (List.range quantity).map fun i =>
    mkBooking (baseId + i) userId
      (generateTicketNumber shortId (n + i + 1))
      (key ++ "-" ++ String.mk (natToDecChars i))

/-- `createMultipleBookings` (the multi-ticket path): builds `quantity`
one-ticket documents inside a transaction and inserts them all-or-nothing;
returns the first created booking.  `fault` injects a store failure inside
the transaction. -/
def createMultipleBookings (st : St) (userId : Nat) (key : String)
    (quantity : Nat) (fault : Bool) :
    Except AppErr (BookingRec × List BookingRec) :=
  let n := bkCount st.bookings
  let newBs := mkMultiBookings st.bookings.length userId st.event.shortId key
    n quantity
  if fault then Except.error (AppErr.storeErr "injected failure")
  else
    match insertManyBookings st.bookings newBs with
    | Except.error e => Except.error e
    | Except.ok bs' =>
      match newBs with
      | b0 :: _ => Except.ok (b0, bs')
      | [] => Except.error (AppErr.storeErr "empty booking batch")

/-- `BookingService.createBooking(data, userId)`.  Flow: idempotency replay
check, event existence check, fast capacity pre-check, atomic conditional
decrement, booking document creation, and on creation failure the
compensating increment before rethrowing. -/
def createBooking (st : St) (userId : Nat) (key : String) (quantity0 : Nat)
    (fault : Bool) : Except AppErr BookingRec × St :=
  let quantity := if quantity0 = 0 then 1 else quantity0
  match bkFindOne st.bookings false (fun b => b.idempotencyKey == key) with
  | some existing => (Except.ok existing, st)
  | none =>
    match evFindById st.event false with
    | none => (Except.error (AppErr.notFound "Event"), st)
    | some ev =>
      if ev.availableTickets < (quantity : Int) then
        (Except.error (AppErr.conflict "No tickets available"), st)
      else
        match atomicDecrementTickets st.event quantity with
        | none =>
          (Except.error (AppErr.conflict
            "No tickets available - sold out or concurrent booking took them"), st)
        | some ev1 =>
          let st1 : St := { st with event := ev1 }
          let created :=
            if quantity = 1 then createSingleBooking st1 userId key fault
            else createMultipleBookings st1 userId key quantity fault
          match created with
          | Except.ok (b, bs') => (Except.ok b, { st1 with bookings := bs' })
          | Except.error e =>
            (Except.error e, { st1 with event := incTickets st1.event quantity })

/-- The mutation `cancelBooking` applies to the loaded booking document:
status cancelled, cancelledAt stamped, and the reason stored only when one
was supplied. -/
def applyCancellation (b : BookingRec) (reason : Option String) (now : Nat) :
    BookingRec :=
  { b with
    status := BookingStatus.cancelled
    cancelledAt := some now
    cancellationReason :=
      match reason with
      | some r => some r
      | none => b.cancellationReason }

/-- `BookingService.cancelBooking(bookingId, userId, reason)`: load the
booking, enforce ownership by returning NotFound, refuse double
cancellation with Conflict, then mark cancelled and unconditionally
increment the event's availableTickets by 1. -/
def cancelBooking (st : St) (bookingId userId : Nat) (reason : Option String)
    (now : Nat) : Except AppErr BookingRec × St :=
  match bkFindById st.bookings bookingId with
  | none => (Except.error (AppErr.notFound "Booking"), st)
  | some b =>
    if b.userId ≠ userId then (Except.error (AppErr.notFound "Booking"), st)
    else if b.status = BookingStatus.cancelled then
      (Except.error (AppErr.conflict "Booking already cancelled"), st)
    else
      let b1 : BookingRec := applyCancellation b reason now
      let st1 : St := { st with bookings := st.bookings.set bookingId b1 }
      (Except.ok b1, { st1 with event := incTickets st1.event 1 })

/-! ## EventService (modules/events/event.service) -/

/-- `EventService.createEvent`: a new event starts with
`availableTickets = totalTickets`, version 0, not deleted.  This is the
initial state of a resource. -/
def initSt (shortId : String) (totalTickets : Nat) : St :=
  { event :=
      { shortId := shortId
        totalTickets := (totalTickets : Int)
        availableTickets := (totalTickets : Int)
        version := 0
        deletedAt := none }
    bookings := [] }

/-- `EventService.updateEvent` restricted to the capacity-relevant part:
when `totalTickets` changes, `availableTickets` is adjusted by the same
difference, and the edit is refused with Conflict when the adjusted value
would be negative (tickets already booked beyond the new total). -/
def updateEvent (st : St) (newTotal : Int) : Except AppErr EventRec × St :=
  match evFindById st.event false with
  | none => (Except.error (AppErr.notFound "Event"), st)
  | some ev =>
    if newTotal ≠ ev.totalTickets then
      let ticketDifference := newTotal - ev.totalTickets
      let newAvailable := ev.availableTickets + ticketDifference
      if newAvailable < 0 then
        (Except.error (AppErr.conflict "Cannot reduce totalTickets"), st)
      else
        let ev1 : EventRec :=
          { ev with
            totalTickets := newTotal
            availableTickets := newAvailable
            version := ev.version + 1 }
        (Except.ok ev1, { st with event := ev1 })
    else (Except.ok ev, st)

/-- Count of confirmed, not soft-deleted bookings, as in
`countDocuments({eventId, status: CONFIRMED, deletedAt: null})`. -/
def confirmedActiveCount (bs : List BookingRec) : Nat :=
  bs.countP fun b => b.status == BookingStatus.confirmed && b.deletedAt == none

/-- `EventService.deleteEvent`: soft-deletes the event unless confirmed
active bookings exist. -/
def deleteEvent (st : St) (now : Nat) : Except AppErr Unit × St :=
  match evFindById st.event false with
  | none => (Except.error (AppErr.notFound "Event"), st)
  | some ev =>
    if 0 < confirmedActiveCount st.bookings then
      (Except.error (AppErr.conflict "Cannot delete event with active bookings"), st)
    else
      (Except.ok (), { st with event := { ev with deletedAt := some now } })

/-! ## Reachability: states produced by complete service operations -/

/-- One complete service call against the resource. -/
inductive Op
  | create (userId : Nat) (key : String) (quantity : Nat) (fault : Bool)
  | cancel (bookingId userId : Nat) (reason : Option String) (now : Nat)
  | edit (newTotal : Int)
  | remove (now : Nat)

/-- State transition of one complete call (its returned value dropped). -/
def applyOp (st : St) : Op → St
  | Op.create u k q f => (createBooking st u k q f).2
  | Op.cancel b u r n => (cancelBooking st b u r n).2
  | Op.edit t => (updateEvent st t).2
  | Op.remove n => (deleteEvent st n).2

/-- The state after a sequence of complete service calls. -/
def runOps (st : St) (ops : List Op) : St := ops.foldl applyOp st

/-- The conservation equation of the spec:
`totalCapacity - availableCount` equals the units held by confirmed
(non-cancelled, non-deleted) booking documents, each document holding one. -/
def Conservation (st : St) : Prop :=
  st.event.totalTickets - st.event.availableTickets =
    (confirmedActiveCount st.bookings : Int)

instance (st : St) : Decidable (Conservation st) := by
  unfold Conservation; infer_instance

/-- Every booking document the services ever write is confirmed or
cancelled (never pending/expired) and never soft-deleted. -/
def BookingWf (b : BookingRec) : Prop :=
  (b.status = BookingStatus.confirmed ∨ b.status = BookingStatus.cancelled) ∧
    b.deletedAt = none

/-- The inductive state invariant: non-negative availability, conservation,
soft-deletion only with zero confirmed bookings, and well-formed booking
documents. -/
def Inv (st : St) : Prop :=
  0 ≤ st.event.availableTickets ∧
  Conservation st ∧
  (st.event.deletedAt ≠ none → confirmedActiveCount st.bookings = 0) ∧
  ∀ b ∈ st.bookings, BookingWf b

/-! ## CacheService (core/cache/redis.client) and the availability service -/

/-- A key-value cache store.  `up = false` models an unreachable Redis:
every raw operation errors. -/
structure CacheStore (α : Type) where
  entries : List (String × α)

/-- Raw client `get`: errors when the store is unreachable. -/
def rawCacheGet (up : Bool) (c : CacheStore α) (k : String) :
    Except String (Option α) :=
  if up then Except.ok ((c.entries.find? fun p => p.1 == k).map Prod.snd)
  else Except.error "redis unreachable"

/-- Raw client `set`: errors when the store is unreachable. -/
def rawCacheSet (up : Bool) (c : CacheStore α) (k : String) (v : α) :
    Except String (CacheStore α) :=
  if up then Except.ok { entries := (k, v) :: c.entries.filter fun p => p.1 != k }
  else Except.error "redis unreachable"

/-- Raw client `del`: errors when the store is unreachable. -/
def rawCacheDel (up : Bool) (c : CacheStore α) (k : String) :
    Except String (CacheStore α) :=
  if up then Except.ok { entries := c.entries.filter fun p => p.1 != k }
  else Except.error "redis unreachable"

/-- `CacheService.get`: catches every store error and degrades to a miss. -/
def cacheServiceGet (up : Bool) (c : CacheStore α) (k : String) : Option α :=
  match rawCacheGet up c k with
  | Except.ok v => v
  | Except.error _ => none

/-- `CacheService.set`: catches every store error and silently drops the
write. -/
def cacheServiceSet (up : Bool) (c : CacheStore α) (k : String) (v : α) :
    CacheStore α :=
  match rawCacheSet up c k v with
  | Except.ok c' => c'
  | Except.error _ => c

/-- `CacheService.del` (used by `invalidateCache`): catches every store
error. -/
def cacheServiceDel (up : Bool) (c : CacheStore α) (k : String) :
    CacheStore α :=
  match rawCacheDel up c k with
  | Except.ok c' => c'
  | Except.error _ => c

/-- The availability snapshot cached and returned by
`EventAvailabilityService.getAvailability`. -/
structure EventAvailability where
  totalTickets : Int
  availableTickets : Int
  confirmedBookings : Int
  lastUpdated : Nat
deriving DecidableEq, Repr

/-- `EventAvailabilityService.getAvailability(eventId)` with `useCache`:
cache read (failures degrade to a miss), then a live read of the Event
document, then a cache write-back (failures silently dropped). -/
def getAvailability (up : Bool) (c : CacheStore EventAvailability) (st : St)
    (eventKey : String) (now : Nat) :
    Except String EventAvailability × CacheStore EventAvailability :=
  match cacheServiceGet up c eventKey with
  | some cached => (Except.ok cached, c)
  | none =>
    match evFindById st.event false with
    | none => (Except.error "Event not found", c)
    | some ev =>
      let availability : EventAvailability :=
        { totalTickets := ev.totalTickets
          availableTickets := ev.availableTickets
          confirmedBookings := ev.totalTickets - ev.availableTickets
          lastUpdated := now }
      (Except.ok availability, cacheServiceSet up c eventKey availability)

/-- Outcome of the idempotency middleware for a mutating request that
carries a well-formed key: either short-circuit with the cached response or
hand the request to the downstream handler. -/
inductive MiddlewareOutcome (ρ : Type)
  | replay (cached : ρ)
  | proceed
deriving DecidableEq, Repr

/-- `idempotencyMiddleware` ledger consultation: a cache hit replays the
stored response; a miss or any cache failure lets the request proceed
(the outer catch falls through to `next()`). -/
def idempotencyLedgerCheck (up : Bool) (c : CacheStore ρ) (key : String) :
    MiddlewareOutcome ρ :=
  match cacheServiceGet up c key with
  | some cached => MiddlewareOutcome.replay cached
  | none => MiddlewareOutcome.proceed

/-! ## Helper lemmas about inserts and counts -/

theorem insertBooking_ok {bs : List BookingRec} {b : BookingRec}
    {bs' : List BookingRec} (h : insertBooking bs b = Except.ok bs') :
    bs' = bs ++ [b] := by
  unfold insertBooking at h
  split at h
  · exact absurd h (by simp)
  · simpa using h.symm

theorem insertManyBookings_ok :
    ∀ (l bs bs' : List BookingRec),
      insertManyBookings bs l = Except.ok bs' → bs' = bs ++ l := by
  intro l
  induction l with
  | nil => intro bs bs' h; simpa [insertManyBookings] using h.symm
  | cons b rest ih =>
    intro bs bs' h
    unfold insertManyBookings at h
    cases hins : insertBooking bs b with
    | error e => rw [hins] at h; exact absurd h (by simp)
    | ok bs1 =>
      rw [hins] at h
      have h1 := insertBooking_ok hins
      have h2 := ih bs1 bs' h
      simp [h2, h1]

theorem confirmedActiveCount_append (bs cs : List BookingRec) :
    confirmedActiveCount (bs ++ cs) =
      confirmedActiveCount bs + confirmedActiveCount cs := by
  simp [confirmedActiveCount, List.countP_append]

theorem countP_set_get? (p : BookingRec → Bool) :
    ∀ (bs : List BookingRec) (i : Nat) (b b1 : BookingRec),
      bs.get? i = some b →
      (bs.set i b1).countP p + (if p b then 1 else 0) =
        bs.countP p + (if p b1 then 1 else 0) := by
  intro bs
  induction bs with
  | nil => intro i b b1 h; simp at h
  | cons x xs ih =>
    intro i b b1 h
    cases i with
    | zero =>
      simp only [List.get?] at h
      cases h
      simp [List.countP_cons]
      omega
    | succ j =>
      simp only [List.get?] at h
      have := ih j b b1 h
      simp [List.countP_cons]
      omega

theorem mem_of_get? {bs : List BookingRec} {i : Nat} {b : BookingRec}
    (h : bs.get? i = some b) : b ∈ bs :=
  List.get?_mem h

/-- Characterization of a successful step 4 (booking document creation):
the collection grows by a batch of freshly confirmed one-ticket documents,
one per requested unit. -/
theorem created_ok_bookings {st : St} {u : Nat} {k : String} {q : Nat}
    {f : Bool} {b : BookingRec} {bs' : List BookingRec}
    (h : (if q = 1 then createSingleBooking st u k f
          else createMultipleBookings st u k q f) = Except.ok (b, bs')) :
    ∃ newBs, bs' = st.bookings ++ newBs ∧ newBs.length = q ∧
      ∀ x ∈ newBs, x.status = BookingStatus.confirmed ∧ x.deletedAt = none := by
  by_cases h1 : q = 1
  · rw [if_pos h1] at h
    unfold createSingleBooking at h
    split at h
    · exact absurd h (by simp)
    · dsimp only at h
      cases hins : insertBooking st.bookings
        (mkBooking st.bookings.length u
          (generateTicketNumber st.event.shortId (bkCount st.bookings + 1)) k) with
      | error e => rw [hins] at h; exact absurd h (by simp)
      | ok bs1 =>
        rw [hins] at h
        have hb := insertBooking_ok hins
        refine ⟨[mkBooking st.bookings.length u
          (generateTicketNumber st.event.shortId (bkCount st.bookings + 1)) k],
          ?_, by simp [h1], ?_⟩
        · simp only [Except.ok.injEq, Prod.mk.injEq] at h
          rw [← h.2, hb]
        · intro x hx
          simp at hx
          simp [hx, mkBooking]
  · rw [if_neg h1] at h
    unfold createMultipleBookings at h
    split at h
    · exact absurd h (by simp)
    · dsimp only at h
      cases hins : insertManyBookings st.bookings
        (mkMultiBookings st.bookings.length u st.event.shortId k
          (bkCount st.bookings) q) with
      | error e => rw [hins] at h; exact absurd h (by simp)
      | ok bs1 =>
        rw [hins] at h
        have hb := insertManyBookings_ok _ _ _ hins
        refine ⟨mkMultiBookings st.bookings.length u st.event.shortId k
          (bkCount st.bookings) q, ?_, by simp [mkMultiBookings], ?_⟩
        · cases hnew : mkMultiBookings st.bookings.length u st.event.shortId k
            (bkCount st.bookings) q with
          | nil =>
            rw [hnew] at h
            exact absurd h (by simp)
          | cons b0 bt =>
            rw [hnew] at h
            simp only [Except.ok.injEq, Prod.mk.injEq] at h
            rw [← h.2, hb, hnew]
        · intro x hx
          simp only [mkMultiBookings, List.mem_map, List.mem_range] at hx
          obtain ⟨i, _, hxeq⟩ := hx
          simp [← hxeq, mkBooking]

theorem confirmedActiveCount_of_all_confirmed {newBs : List BookingRec}
    (h : ∀ x ∈ newBs, x.status = BookingStatus.confirmed ∧ x.deletedAt = none) :
    confirmedActiveCount newBs = newBs.length := by
  rw [confirmedActiveCount, List.countP_eq_length]
  intro a ha
  have := h a ha
  simp [this.1, this.2]

/-! ## Characterizations of the atomic update -/

theorem atomicDecrementTickets_some {e : EventRec} {q : Nat} {e' : EventRec}
    (h : atomicDecrementTickets e q = some e') :
    e.deletedAt = none ∧ (q : Int) ≤ e.availableTickets ∧
      e' = { e with
        availableTickets := e.availableTickets - q,
        version := e.version + 1 } := by
  unfold atomicDecrementTickets at h
  split at h
  next hg => exact ⟨hg.1, hg.2, by simpa using h.symm⟩
  next => simp at h

theorem atomicDecrementTickets_none {e : EventRec} {q : Nat}
    (h : atomicDecrementTickets e q = none) :
    ¬(e.deletedAt = none ∧ (q : Int) ≤ e.availableTickets) := by
  unfold atomicDecrementTickets at h
  split at h
  next => simp at h
  next hg => exact hg

theorem bkFindById_some {bs : List BookingRec} {i : Nat} {b : BookingRec}
    (h : bkFindById bs i = some b) :
    bs.get? i = some b ∧ b.deletedAt = none := by
  unfold bkFindById at h
  cases hg : bs.get? i with
  | none => rw [hg] at h; simp at h
  | some x =>
    rw [hg] at h
    dsimp only at h
    by_cases hx : x.deletedAt = none
    · rw [if_pos hx] at h
      obtain rfl : x = b := by simpa using h
      exact ⟨rfl, hx⟩
    · rw [if_neg hx] at h
      simp at h

/-! ## Invariant preservation -/

theorem inv_createBooking (st : St) (u : Nat) (k : String) (q0 : Nat)
    (f : Bool) (h : Inv st) : Inv (createBooking st u k q0 f).2 := by
  obtain ⟨hpos, hcons, hdel0, hwf⟩ := h
  have hInv : Inv st := ⟨hpos, hcons, hdel0, hwf⟩
  unfold createBooking
  dsimp only
  set q : Nat := if q0 = 0 then 1 else q0 with hqdef
  cases hfind : bkFindOne st.bookings false (fun b => b.idempotencyKey == k) with
  | some b => exact hInv
  | none =>
    cases hev : evFindById st.event false with
    | none => exact hInv
    | some ev =>
      dsimp only
      by_cases hfast : ev.availableTickets < (q : Int)
      · rw [if_pos hfast]
        exact hInv
      · rw [if_neg hfast]
        cases hcas : atomicDecrementTickets st.event q with
        | none => exact hInv
        | some ev1 =>
          dsimp only
          obtain ⟨hdel, hge, hev1⟩ := atomicDecrementTickets_some hcas
          have hav : ev1.availableTickets = st.event.availableTickets - q := by
            rw [hev1]
          have htot : ev1.totalTickets = st.event.totalTickets := by rw [hev1]
          have hdel1 : ev1.deletedAt = none := by rw [hev1]; exact hdel
          have hcons' : st.event.totalTickets - st.event.availableTickets =
              (confirmedActiveCount st.bookings : Int) := hcons
          cases hok : (if q = 1 then
              createSingleBooking { st with event := ev1 } u k f
            else
              createMultipleBookings { st with event := ev1 } u k q f) with
          | ok pair =>
            obtain ⟨b, bs'⟩ := pair
            obtain ⟨newBs, hbs', hlen, hnew⟩ := created_ok_bookings hok
            dsimp only at hbs'
            refine ⟨?_, ?_, ?_, ?_⟩
            · show 0 ≤ ev1.availableTickets
              omega
            · show ev1.totalTickets - ev1.availableTickets =
                (confirmedActiveCount bs' : Int)
              rw [hbs', confirmedActiveCount_append,
                confirmedActiveCount_of_all_confirmed hnew, hlen]
              push_cast
              omega
            · intro hcontra
              exact absurd hdel1 hcontra
            · intro x hx
              simp only [hbs', List.mem_append] at hx
              rcases hx with hx | hx
              · exact hwf x hx
              · exact ⟨Or.inl (hnew x hx).1, (hnew x hx).2⟩
          | error e =>
            have hia : (incTickets ev1 q).availableTickets =
                ev1.availableTickets + q := by
              unfold incTickets
              rw [if_pos hdel1]
            have hit : (incTickets ev1 q).totalTickets = ev1.totalTickets := by
              unfold incTickets
              rw [if_pos hdel1]
            have hid : (incTickets ev1 q).deletedAt = none := by
              unfold incTickets
              rw [if_pos hdel1]
              exact hdel1
            refine ⟨?_, ?_, ?_, ?_⟩
            · show 0 ≤ (incTickets ev1 q).availableTickets
              omega
            · show (incTickets ev1 q).totalTickets -
                (incTickets ev1 q).availableTickets =
                (confirmedActiveCount st.bookings : Int)
              omega
            · intro hcontra
              exact absurd hid hcontra
            · exact hwf

theorem inv_cancelBooking (st : St) (bid uid : Nat) (reason : Option String)
    (now : Nat) (h : Inv st) : Inv (cancelBooking st bid uid reason now).2 := by
  unfold cancelBooking
  split
  · exact h
  next b hfind =>
    split
    · exact h
    next houner =>
      split
      · exact h
      next hnotcan =>
        dsimp only
        obtain ⟨hget, hbdel⟩ := bkFindById_some hfind
        obtain ⟨hpos, hcons, hdel0, hwf⟩ := h
        have hbmem : b ∈ st.bookings := mem_of_get? hget
        have hbwf := hwf b hbmem
        have hbconf : b.status = BookingStatus.confirmed := by
          rcases hbwf.1 with hc | hc
          · exact hc
          · exact absurd hc hnotcan
        have hccpos : 0 < confirmedActiveCount st.bookings := by
          rw [confirmedActiveCount, List.countP_pos_iff]
          exact ⟨b, hbmem, by simp [hbconf, hbwf.2]⟩
        have hedel : st.event.deletedAt = none := by
          by_contra hne
          have := hdel0 hne
          omega
        have hcons' : st.event.totalTickets - st.event.availableTickets =
            (confirmedActiveCount st.bookings : Int) := hcons
        have hset := countP_set_get?
          (fun x => x.status == BookingStatus.confirmed && x.deletedAt == none)
          st.bookings bid b (applyCancellation b reason now) hget
        rw [if_pos (by simp [hbconf, hbwf.2]),
          if_neg (by simp [applyCancellation])] at hset
        have hia : (incTickets st.event 1).availableTickets =
            st.event.availableTickets + 1 := by
          unfold incTickets
          rw [if_pos hedel]
          simp
        have hit : (incTickets st.event 1).totalTickets =
            st.event.totalTickets := by
          unfold incTickets
          rw [if_pos hedel]
        have hid : (incTickets st.event 1).deletedAt = none := by
          unfold incTickets
          rw [if_pos hedel]
          exact hedel
        refine ⟨?_, ?_, ?_, ?_⟩
        · show 0 ≤ (incTickets st.event 1).availableTickets
          omega
        · show (incTickets st.event 1).totalTickets -
            (incTickets st.event 1).availableTickets = _
          rw [hia, hit]
          dsimp only
          unfold confirmedActiveCount at hccpos hcons' ⊢
          omega
        · intro hcontra
          exact absurd hid hcontra
        · intro x hx
          rcases List.mem_or_eq_of_mem_set hx with hx | hx
          · exact hwf x hx
          · rw [hx]
            exact ⟨Or.inr rfl, hbwf.2⟩

theorem evFindById_some {e : EventRec} {b : Bool} {ev : EventRec}
    (h : evFindById e b = some ev) : ev = e ∧ (b = true ∨ e.deletedAt = none) := by
  unfold evFindById at h
  split at h
  next hc =>
    obtain rfl : e = ev := by simpa using h
    constructor
    · rfl
    · rcases Bool.or_eq_true_iff.1 hc with hb | hb
      · exact Or.inl hb
      · exact Or.inr (by simpa using hb)
  next => simp at h

theorem inv_updateEvent (st : St) (newTotal : Int) (h : Inv st) :
    Inv (updateEvent st newTotal).2 := by
  unfold updateEvent
  cases hev : evFindById st.event false with
  | none => exact h
  | some ev =>
    obtain ⟨rfl, hor⟩ := evFindById_some hev
    have hedel : st.event.deletedAt = none := by
      rcases hor with hb | hb
      · simp at hb
      · exact hb
    dsimp only
    by_cases hne : newTotal ≠ st.event.totalTickets
    · rw [if_pos hne]
      by_cases hneg :
          st.event.availableTickets + (newTotal - st.event.totalTickets) < 0
      · rw [if_pos hneg]
        exact h
      · rw [if_neg hneg]
        obtain ⟨hpos, hcons, hdel0, hwf⟩ := h
        have hcons' : st.event.totalTickets - st.event.availableTickets =
            (confirmedActiveCount st.bookings : Int) := hcons
        refine ⟨?_, ?_, ?_, hwf⟩
        · show (0 : Int) ≤
            st.event.availableTickets + (newTotal - st.event.totalTickets)
          omega
        · show newTotal -
            (st.event.availableTickets + (newTotal - st.event.totalTickets)) =
            (confirmedActiveCount st.bookings : Int)
          omega
        · intro hcontra
          exact absurd hedel hcontra
    · rw [if_neg hne]
      exact h

theorem inv_deleteEvent (st : St) (now : Nat) (h : Inv st) :
    Inv (deleteEvent st now).2 := by
  unfold deleteEvent
  cases hev : evFindById st.event false with
  | none => exact h
  | some ev =>
    obtain ⟨rfl, _⟩ := evFindById_some hev
    dsimp only
    by_cases hcc : 0 < confirmedActiveCount st.bookings
    · rw [if_pos hcc]
      exact h
    · rw [if_neg hcc]
      obtain ⟨hpos, hcons, hdel0, hwf⟩ := h
      have hcc0 : confirmedActiveCount st.bookings = 0 := by omega
      exact ⟨hpos, hcons, fun _ => hcc0, hwf⟩

theorem inv_applyOp (st : St) (op : Op) (h : Inv st) : Inv (applyOp st op) := by
  cases op with
  | create u k q f => exact inv_createBooking st u k q f h
  | cancel b u r n => exact inv_cancelBooking st b u r n h
  | edit t => exact inv_updateEvent st t h
  | remove n => exact inv_deleteEvent st n h

theorem inv_initSt (shortId : String) (total : Nat) :
    Inv (initSt shortId total) := by
  refine ⟨by simp [initSt], by simp [Conservation, initSt, confirmedActiveCount], ?_, ?_⟩
  · intro hc
    simp [initSt] at hc
  · intro b hb
    simp [initSt] at hb

theorem inv_runOps (st : St) (ops : List Op) (h : Inv st) :
    Inv (runOps st ops) := by
  induction ops generalizing st with
  | nil => exact h
  | cons op rest ih => exact ih _ (inv_applyOp st op h)

/-! ## Serialized runs of quantity-1 reservation calls -/

/-- A serialized execution of `createBooking` calls of quantity 1, one per
idempotency key, tallying (successes, Conflict failures, other failures)
and returning the final state. -/
def runUnitCreates (st : St) : List String → Nat × Nat × Nat × St
  | [] => (0, 0, 0, st)
  | k :: rest =>
    let p := createBooking st 0 k 1 false
    let r := runUnitCreates p.2 rest
    match p.1 with
    | Except.ok _ => (r.1 + 1, r.2.1, r.2.2.1, r.2.2.2)
    | Except.error (AppErr.conflict _) => (r.1, r.2.1 + 1, r.2.2.1, r.2.2.2)
    | Except.error _ => (r.1, r.2.1, r.2.2.1 + 1, r.2.2.2)

theorem bkFindOne_key_none {bs : List BookingRec} {k : String}
    (h : ∀ b ∈ bs, b.idempotencyKey ≠ k) :
    bkFindOne bs false (fun b => b.idempotencyKey == k) = none := by
  unfold bkFindOne
  rw [List.find?_eq_none]
  intro x hx
  simp [preFindFilter, h x hx]

theorem ticket_fresh {bs : List BookingRec} {s : String}
    (htick : ∀ i (h : i < bs.length),
      (bs.get ⟨i, h⟩).ticketNumber = generateTicketNumber s (i + 1)) :
    ∀ x ∈ bs, x.ticketNumber ≠ generateTicketNumber s (bs.length + 1) := by
  intro x hx
  obtain ⟨⟨i, hi⟩, rfl⟩ := List.mem_iff_get.1 hx
  rw [htick i hi]
  intro hcontra
  have := generateTicketNumber_inj s hcontra
  omega

theorem violatesUniqueIndex_false {bs : List BookingRec} {b : BookingRec}
    (hk : ∀ x ∈ bs, x.idempotencyKey ≠ b.idempotencyKey)
    (ht : ∀ x ∈ bs, x.ticketNumber ≠ b.ticketNumber) :
    violatesUniqueIndex bs b = false := by
  unfold violatesUniqueIndex
  rw [Bool.or_eq_false_iff]
  constructor <;> rw [List.any_eq_false] <;> intro x hx <;>
    simp [hk x hx, ht x hx]

/-- One serialized quantity-1 call on a state with a fresh idempotency key
and canonical ticket numbers: it fails with Conflict when no ticket is
available, and otherwise reserves one ticket and appends one confirmed
booking document. -/
theorem createBooking_unit_step (st : St) (k : String)
    (hdel : st.event.deletedAt = none)
    (hkey : ∀ b ∈ st.bookings, b.idempotencyKey ≠ k)
    (htick : ∀ i (h : i < st.bookings.length),
      (st.bookings.get ⟨i, h⟩).ticketNumber =
        generateTicketNumber st.event.shortId (i + 1)) :
    (st.event.availableTickets < 1 →
      createBooking st 0 k 1 false =
        (Except.error (AppErr.conflict "No tickets available"), st)) ∧
    (1 ≤ st.event.availableTickets →
      createBooking st 0 k 1 false =
        (Except.ok (mkBooking st.bookings.length 0
            (generateTicketNumber st.event.shortId (st.bookings.length + 1)) k),
          { event :=
              { st.event with
                availableTickets := st.event.availableTickets - 1,
                version := st.event.version + 1 },
            bookings := st.bookings ++ [mkBooking st.bookings.length 0
              (generateTicketNumber st.event.shortId (st.bookings.length + 1)) k] })) := by
  have hev : evFindById st.event false = some st.event := by
    simp [evFindById, hdel]
  have hfind := bkFindOne_key_none hkey
  constructor
  · intro hlt
    unfold createBooking
    rw [hfind, hev]
    dsimp only
    rw [if_pos (by simpa using hlt)]
  · intro hge
    have hcas : atomicDecrementTickets st.event 1 =
        some { st.event with
          availableTickets := st.event.availableTickets - 1,
          version := st.event.version + 1 } := by
      unfold atomicDecrementTickets
      rw [if_pos ⟨hdel, by simpa using hge⟩]
      simp
    have hvio := violatesUniqueIndex_false
      (b := mkBooking st.bookings.length 0
        (generateTicketNumber st.event.shortId (st.bookings.length + 1)) k)
      (fun x hx => by simpa [mkBooking] using hkey x hx)
      (fun x hx => by simpa [mkBooking] using ticket_fresh htick x hx)
    unfold createBooking
    rw [hfind, hev]
    dsimp only
    rw [if_neg (by simpa using hge)]
    have hone : (if (1 : Nat) = 0 then (1 : Nat) else 1) = 1 := by simp
    simp only [hone]
    rw [hcas]
    dsimp only
    rw [if_pos trivial]
    unfold createSingleBooking
    rw [if_neg (by simp)]
    dsimp only
    unfold insertBooking bkCount
    rw [hvio]
    rfl

/-- Counting theorem for a serialized run of quantity-1 calls with pairwise
distinct fresh keys: successes, Conflict failures, other failures, and the
final availability are fully determined by the starting availability `A`
and the number of calls. -/
theorem runUnitCreates_count (s : String) :
    ∀ (keys : List String) (st : St) (A : Nat),
      keys.Nodup →
      st.event.shortId = s →
      st.event.deletedAt = none →
      st.event.availableTickets = (A : Int) →
      (∀ i (h : i < st.bookings.length),
        (st.bookings.get ⟨i, h⟩).ticketNumber = generateTicketNumber s (i + 1)) →
      (∀ b ∈ st.bookings, ∀ k ∈ keys, b.idempotencyKey ≠ k) →
      (runUnitCreates st keys).1 = min A keys.length ∧
      (runUnitCreates st keys).2.1 = keys.length - min A keys.length ∧
      (runUnitCreates st keys).2.2.1 = 0 ∧
      (runUnitCreates st keys).2.2.2.event.availableTickets =
        (A : Int) - (min A keys.length : Nat) := by
  intro keys
  induction keys with
  | nil =>
    intro st A _ _ _ hav _ _
    refine ⟨by simp [runUnitCreates], by simp [runUnitCreates],
      by simp [runUnitCreates], ?_⟩
    simp [runUnitCreates, hav]
  | cons k rest ih =>
    intro st A hnd hsid hdel hav htick hkeys
    obtain ⟨hknotin, hndrest⟩ := List.nodup_cons.1 hnd
    have htick' : ∀ i (h : i < st.bookings.length),
        (st.bookings.get ⟨i, h⟩).ticketNumber =
          generateTicketNumber st.event.shortId (i + 1) := by
      rw [hsid]; exact htick
    have hstep := createBooking_unit_step st k hdel
      (fun b hb => hkeys b hb k (List.mem_cons_self k rest)) htick'
    rcases Nat.eq_zero_or_pos A with hA0 | hApos
    · subst hA0
      have hlt : st.event.availableTickets < 1 := by rw [hav]; simp
      have heq := hstep.1 hlt
      have hr := ih st 0 hndrest hsid hdel hav htick
        (fun b hb k' hk' => hkeys b hb k' (List.mem_cons_of_mem k hk'))
      unfold runUnitCreates
      rw [heq]
      dsimp only
      refine ⟨by rw [hr.1]; simp only [List.length_cons]; omega,
        by rw [hr.2.1]; simp only [List.length_cons]; omega,
        by rw [hr.2.2.1], ?_⟩
      rw [hr.2.2.2]
      simp
    · have hge : 1 ≤ st.event.availableTickets := by rw [hav]; exact_mod_cast hApos
      have heq := hstep.2 hge
      set newb := mkBooking st.bookings.length 0
        (generateTicketNumber st.event.shortId (st.bookings.length + 1)) k
        with hnewb
      set st' : St :=
        { event :=
            { st.event with
              availableTickets := st.event.availableTickets - 1,
              version := st.event.version + 1 },
          bookings := st.bookings ++ [newb] } with hst'
      have hsid' : st'.event.shortId = s := hsid
      have hdel' : st'.event.deletedAt = none := hdel
      have hav' : st'.event.availableTickets = ((A - 1 : Nat) : Int) := by
        show st.event.availableTickets - 1 = ((A - 1 : Nat) : Int)
        rw [hav]
        omega
      have htickext : ∀ i (h : i < st'.bookings.length),
          (st'.bookings.get ⟨i, h⟩).ticketNumber =
            generateTicketNumber s (i + 1) := by
        intro i h
        show ((st.bookings ++ [newb]).get ⟨i, _⟩).ticketNumber = _
        rcases Nat.lt_or_ge i st.bookings.length with hi | hi
        · have hg : (st.bookings ++ [newb]).get
              ⟨i, by simp; omega⟩ = st.bookings.get ⟨i, hi⟩ := by
            simp only [List.get_eq_getElem]
            exact List.getElem_append_left hi
          rw [hg]
          exact htick i hi
        · have hlen : i = st.bookings.length := by
            have := h
            simp at this
            omega
          subst hlen
          have hg : (st.bookings ++ [newb]).get
              ⟨st.bookings.length, by simp⟩ = newb := by
            simp
          rw [hg, hnewb, hsid]
          simp [mkBooking]
      have hkeysext : ∀ b ∈ st'.bookings, ∀ k' ∈ rest,
          b.idempotencyKey ≠ k' := by
        intro b hb k' hk'
        show b.idempotencyKey ≠ k'
        rcases List.mem_append.1 hb with hb | hb
        · exact hkeys b hb k' (List.mem_cons_of_mem k hk')
        · have : b = newb := by simpa using hb
          rw [this, hnewb]
          show k ≠ k'
          intro hkk
          exact hknotin (hkk ▸ hk')
      have hr := ih st' (A - 1) hndrest hsid' hdel' hav' htickext hkeysext
      unfold runUnitCreates
      rw [heq]
      dsimp only
      refine ⟨by rw [hr.1]; simp only [List.length_cons]; omega,
        by rw [hr.2.1]; simp only [List.length_cons]; omega,
        by rw [hr.2.2.1], ?_⟩
      rw [hr.2.2.2]
      simp only [List.length_cons]
      omega

/-! ## A concrete interleaving of two concurrent quantity-1 calls

Each step below is one of the store operations the coordinator performs; the
two calls A (user 100, key "ka") and B (user 200, key "kb") run against a
fresh resource with 2 tickets.  Both atomic decrements apply first; then
both calls read the booking count (still 0) before either inserts, so both
derive the same ticket number; A's save succeeds, B's save hits the
`ticketNumber` unique index, and B runs its compensating increment and
rethrows the duplicate-key error. -/
def raceInterleaving : Option (AppErr × St) :=
  let st0 := initSt "EVT001" 2
  match atomicDecrementTickets st0.event 1 with
  | none => none
  | some evA =>
    match atomicDecrementTickets evA 1 with
    | none => none
    | some evB =>
      let countA := bkCount st0.bookings
      let countB := bkCount st0.bookings
      let bA := mkBooking 0 100 (generateTicketNumber "EVT001" (countA + 1)) "ka"
      let bB := mkBooking 1 200 (generateTicketNumber "EVT001" (countB + 1)) "kb"
      match insertBooking st0.bookings bA with
      | Except.error _ => none
      | Except.ok bsA =>
        match insertBooking bsA bB with
        | Except.ok _ => none
        | Except.error e =>
          some (e, { event := incTickets evB 1, bookings := bsA })

/-! ## Claim theorems -/

/-- C1 (counterexample).  The claim asserts that K concurrent quantity-1
calls from availableCount = C always yield exactly C successes and K − C
Conflict failures with final availableCount = 0.  In the interleaving
`raceInterleaving` (C = 2, K = 2) both atomic decrements apply, but both
calls read the same booking count and derive the same ticket number, so the
second insert fails on the `ticketNumber` unique index, is compensated, and
surfaces a duplicate-key store error: only 1 success, a failure that is not
a Conflict, and final availableCount = 1, not 0. -/
theorem concurrentUnitCalls_ticketRace_counterexample :
    (raceInterleaving.map fun p =>
      (p.1, p.2.event.availableTickets, p.2.bookings.length)) =
    some (AppErr.storeErr "duplicate key", 1, 1) := by decide

/-- C1 (amended).  The atomic conditional decrement on the capacity record
either applies (availableTickets falls by the quantity and version is
bumped) or is refused, and the two outcomes are mutually exclusive;
consequently, when the calls' booking-record creation steps do not
interleave (serialized calls), K quantity-1 `createBooking` calls with
distinct fresh idempotency keys starting from availableCount = C with
C ≤ K yield exactly C successes and K − C Conflict failures (and no other
failures), with final availableCount = 0. -/
theorem casDichotomy_and_serializedUnitCounts :
    (∀ (e : EventRec) (q : Nat),
      (e.deletedAt = none ∧ (q : Int) ≤ e.availableTickets →
        atomicDecrementTickets e q =
          some { e with
            availableTickets := e.availableTickets - q,
            version := e.version + 1 }) ∧
      (¬(e.deletedAt = none ∧ (q : Int) ≤ e.availableTickets) →
        atomicDecrementTickets e q = none)) ∧
    (∀ (s : String) (C : Nat) (keys : List String),
      keys.Nodup → C ≤ keys.length →
      (runUnitCreates (initSt s C) keys).1 = C ∧
      (runUnitCreates (initSt s C) keys).2.1 = keys.length - C ∧
      (runUnitCreates (initSt s C) keys).2.2.1 = 0 ∧
      (runUnitCreates (initSt s C) keys).2.2.2.event.availableTickets = 0) := by
  constructor
  · intro e q
    constructor
    · intro hg
      unfold atomicDecrementTickets
      rw [if_pos hg]
    · intro hg
      unfold atomicDecrementTickets
      rw [if_neg hg]
  · intro s C keys hnd hCK
    have h := runUnitCreates_count s keys (initSt s C) C hnd rfl rfl rfl
      (fun i hi => absurd hi (by simp [initSt]))
      (fun b hb => absurd hb (by simp [initSt]))
    have hmin : min C keys.length = C := by omega
    refine ⟨by rw [h.1, hmin], by rw [h.2.1, hmin], h.2.2.1, ?_⟩
    rw [h.2.2.2, hmin]
    omega

/-- Witness for C1's amended theorem at a concrete input. -/
theorem casDichotomy_and_serializedUnitCounts_witness :
    (⟨"E", 3, 3, 0, none⟩ : EventRec).deletedAt = none ∧
    ((1 : Nat) : Int) ≤ (⟨"E", 3, 3, 0, none⟩ : EventRec).availableTickets ∧
    atomicDecrementTickets ⟨"E", 3, 3, 0, none⟩ 1 = some ⟨"E", 3, 2, 1, none⟩ ∧
    ["ka", "kb", "kc"].Nodup ∧
    (runUnitCreates (initSt "E" 2) ["ka", "kb", "kc"]).1 = 2 ∧
    (runUnitCreates (initSt "E" 2) ["ka", "kb", "kc"]).2.1 = 1 :=
  ⟨rfl, by decide, by
      have h := (casDichotomy_and_serializedUnitCounts.1
        ⟨"E", 3, 3, 0, none⟩ 1).1 ⟨rfl, by decide⟩
      simpa using h,
    by decide,
    (casDichotomy_and_serializedUnitCounts.2 "E" 2 ["ka", "kb", "kc"]
      (by decide) (by decide)).1,
    by
      have h := (casDichotomy_and_serializedUnitCounts.2 "E" 2
        ["ka", "kb", "kc"] (by decide) (by decide)).2.1
      simpa using h⟩

/-- C2 (code bug).  For quantity 2 the multi-ticket path stores the
suffixed keys `K-0`, `K-1`, so replaying the identical request with key `K`
misses the idempotency lookup, decrements the capacity a second time, and
then aborts on the unique `idempotencyKey` index: the caller gets a
duplicate-key store error instead of the first response, and the event
record shows the extra side effects (version bumped twice more by the
decrement and its compensation). -/
theorem multiTicketReplay_duplicateKey_eval :
    (createBooking (initSt "EVT001" 5) 7 "K" 2 false).1 =
      Except.ok (mkBooking 0 7 (generateTicketNumber "EVT001" 1) "K-0") ∧
    (createBooking (initSt "EVT001" 5) 7 "K" 2 false).2.event =
      ⟨"EVT001", 5, 3, 1, none⟩ ∧
    (createBooking (createBooking (initSt "EVT001" 5) 7 "K" 2 false).2
        7 "K" 2 false).1 =
      Except.error (AppErr.storeErr "duplicate key") ∧
    (createBooking (createBooking (initSt "EVT001" 5) 7 "K" 2 false).2
        7 "K" 2 false).2.event =
      ⟨"EVT001", 5, 3, 3, none⟩ := by decide

/-- C3.  When the booking-record creation step fails (injected fault) after
the atomic decrement succeeded, the coordinator's compensating increment
restores `availableTickets` to its pre-call value — on every path the
returned state has the original availability — and the caller sees the
original creation failure, not a compensation error. -/
theorem rollback_restores_availableTickets (st : St) (u : Nat) (k : String)
    (q : Nat) :
    (createBooking st u k q true).2.event.availableTickets =
      st.event.availableTickets ∧
    (bkFindOne st.bookings false (fun b => b.idempotencyKey == k) = none →
      st.event.deletedAt = none →
      (((if q = 0 then 1 else q) : Nat) : Int) ≤ st.event.availableTickets →
      (createBooking st u k q true).1 =
        Except.error (AppErr.storeErr "injected failure")) := by
  have hfault : ∀ (st1 : St),
      (if (if q = 0 then 1 else q) = 1 then createSingleBooking st1 u k true
        else createMultipleBookings st1 u k (if q = 0 then 1 else q) true) =
        Except.error (AppErr.storeErr "injected failure") := by
    intro st1
    split <;> first | rfl | (split <;> rfl)
  constructor
  · unfold createBooking
    dsimp only
    cases hfind : bkFindOne st.bookings false
        (fun b => b.idempotencyKey == k) with
    | some b => rfl
    | none =>
      cases hev : evFindById st.event false with
      | none => rfl
      | some ev =>
        dsimp only
        by_cases hfast :
            ev.availableTickets < (((if q = 0 then 1 else q) : Nat) : Int)
        · rw [if_pos hfast]
        · rw [if_neg hfast]
          cases hcas : atomicDecrementTickets st.event
              (if q = 0 then 1 else q) with
          | none => rfl
          | some ev1 =>
            dsimp only
            obtain ⟨hdel, hge, hev1⟩ := atomicDecrementTickets_some hcas
            have hdel1 : ev1.deletedAt = none := by rw [hev1]; exact hdel
            have hav : ev1.availableTickets =
                st.event.availableTickets - (if q = 0 then 1 else q) := by
              rw [hev1]
            rw [hfault]
            dsimp only
            show (incTickets ev1 (if q = 0 then 1 else q)).availableTickets = _
            unfold incTickets
            rw [if_pos hdel1]
            dsimp only
            omega
  · intro hfind hdel hge
    have hev : evFindById st.event false = some st.event := by
      simp [evFindById, hdel]
    have hcas : atomicDecrementTickets st.event (if q = 0 then 1 else q) =
        some { st.event with
          availableTickets :=
            st.event.availableTickets - (if q = 0 then 1 else q),
          version := st.event.version + 1 } := by
      unfold atomicDecrementTickets
      rw [if_pos ⟨hdel, hge⟩]
    unfold createBooking
    rw [hfind, hev]
    dsimp only
    rw [if_neg (not_lt.2 hge), hcas]
    dsimp only
    rw [hfault]

/-- Witness for C3 at a concrete input. -/
theorem rollback_restores_availableTickets_witness :
    bkFindOne (initSt "E" 4).bookings false
      (fun b => b.idempotencyKey == "k") = none ∧
    (initSt "E" 4).event.deletedAt = none ∧
    (((if (2 : Nat) = 0 then 1 else 2 : Nat)) : Int) ≤
      (initSt "E" 4).event.availableTickets ∧
    (createBooking (initSt "E" 4) 9 "k" 2 true).1 =
      Except.error (AppErr.storeErr "injected failure") ∧
    (createBooking (initSt "E" 4) 9 "k" 2 true).2.event.availableTickets =
      (initSt "E" 4).event.availableTickets :=
  ⟨by decide, rfl, by decide,
    (rollback_restores_availableTickets (initSt "E" 4) 9 "k" 2).2
      (by decide) rfl (by decide),
    (rollback_restores_availableTickets (initSt "E" 4) 9 "k" 2).1⟩

/-- C4 (counterexample).  The claim asserts that cancelling a confirmed
reservation of quantity q increases availableCount by exactly q.  A
quantity-2 reservation on a 5-ticket resource leaves availableTickets = 3;
cancelling the reservation returned by that call increments by 1 only
(`$inc: {availableTickets: 1}`), giving 4, not 3 + 2 = 5. -/
theorem cancelMultiUnit_restoresOne_counterexample :
    (createBooking (initSt "EVT001" 5) 7 "K" 2 false).2.event.availableTickets
      = 3 ∧
    (cancelBooking (createBooking (initSt "EVT001" 5) 7 "K" 2 false).2
        0 7 none 99).1 =
      Except.ok { mkBooking 0 7 (generateTicketNumber "EVT001" 1) "K-0" with
        status := BookingStatus.cancelled, cancelledAt := some 99 } ∧
    (cancelBooking (createBooking (initSt "EVT001" 5) 7 "K" 2 false).2
        0 7 none 99).2.event.availableTickets = 4 ∧
    (4 : Int) ≠ 3 + 2 := by decide

/-- C4 (amended).  Cancelling a confirmed booking record increments the
resource's availableTickets by exactly 1 — each Reservation Record
represents a single ticket, so the record returned by a multi-unit call
restores only its one unit — sets status to cancelled with cancelledAt,
and a second cancelBooking on the same record fails with Conflict and
leaves availableTickets unchanged. -/
theorem cancelBooking_restores_exactly_one (st : St) (bid uid : Nat)
    (reason reason2 : Option String) (now now2 : Nat) (b : BookingRec)
    (hfind : bkFindById st.bookings bid = some b)
    (huid : b.userId = uid)
    (hconf : b.status = BookingStatus.confirmed)
    (hedel : st.event.deletedAt = none) :
    (cancelBooking st bid uid reason now).2.event.availableTickets =
      st.event.availableTickets + 1 ∧
    (cancelBooking st bid uid reason now).1 =
      Except.ok (applyCancellation b reason now) ∧
    (cancelBooking (cancelBooking st bid uid reason now).2
        bid uid reason2 now2).1 =
      Except.error (AppErr.conflict "Booking already cancelled") ∧
    (cancelBooking (cancelBooking st bid uid reason now).2
        bid uid reason2 now2).2.event.availableTickets =
      (cancelBooking st bid uid reason now).2.event.availableTickets := by
  obtain ⟨hget, hbdel⟩ := bkFindById_some hfind
  obtain ⟨hlt, _⟩ := List.get?_eq_some.1 hget
  have heq : cancelBooking st bid uid reason now =
      (Except.ok (applyCancellation b reason now),
        { event := incTickets st.event 1,
          bookings := st.bookings.set bid (applyCancellation b reason now) }) := by
    unfold cancelBooking
    rw [hfind]
    dsimp only
    rw [if_neg (by simp [huid]), if_neg (by simp [hconf])]
  have hfind2 : bkFindById (cancelBooking st bid uid reason now).2.bookings
      bid = some (applyCancellation b reason now) := by
    rw [heq]
    unfold bkFindById
    rw [List.get?_set_eq_of_lt _ hlt]
    dsimp only
    rw [if_pos (show (applyCancellation b reason now).deletedAt = none from hbdel)]
  have hgen : ∀ st2 : St,
      bkFindById st2.bookings bid = some (applyCancellation b reason now) →
      cancelBooking st2 bid uid reason2 now2 =
        (Except.error (AppErr.conflict "Booking already cancelled"), st2) := by
    intro st2 hf
    unfold cancelBooking
    rw [hf]
    dsimp only
    rw [if_neg (by simp [applyCancellation, huid]),
      if_pos (show (applyCancellation b reason now).status =
        BookingStatus.cancelled from rfl)]
  have heq2 := hgen (cancelBooking st bid uid reason now).2 hfind2
  refine ⟨?_, by rw [heq], by rw [heq2], by rw [heq2]⟩
  rw [heq]
  show (incTickets st.event 1).availableTickets = _
  unfold incTickets
  rw [if_pos hedel]
  simp

/-- Witness for C4's amended theorem at a concrete input. -/
theorem cancelBooking_restores_exactly_one_witness :
    bkFindById (createBooking (initSt "E" 2) 5 "k" 1 false).2.bookings 0 =
      some (mkBooking 0 5 (generateTicketNumber "E" 1) "k") ∧
    (cancelBooking (createBooking (initSt "E" 2) 5 "k" 1 false).2
        0 5 none 9).2.event.availableTickets =
      (createBooking (initSt "E" 2) 5 "k" 1 false).2.event.availableTickets
        + 1 :=
  ⟨by decide,
    (cancelBooking_restores_exactly_one
      (createBooking (initSt "E" 2) 5 "k" 1 false).2 0 5 none none 9 9
      (mkBooking 0 5 (generateTicketNumber "E" 1) "k")
      (by decide) (by decide) (by decide) (by decide)).1⟩

/-- C5 (counterexample).  The claim asserts the conservation equation holds
at any instant, including between the capacity decrement and the booking
insert inside one createReservation call.  Starting from a fresh conserved
resource with 1 ticket, the state immediately after the atomic decrement
(the configuration the coordinator is in between step 3 and step 4) has
availableTickets = 0 but no confirmed booking document yet, so
totalCapacity − availableCount = 1 ≠ 0. -/
theorem conservation_midCall_counterexample :
    Conservation (initSt "EVT001" 1) ∧
    atomicDecrementTickets (initSt "EVT001" 1).event 1 =
      some ⟨"EVT001", 1, 0, 1, none⟩ ∧
    ¬ Conservation (St.mk ⟨"EVT001", 1, 0, 1, none⟩
        (initSt "EVT001" 1).bookings) := by decide

/-- C5 (amended).  The conservation equation
`totalTickets − availableTickets = Σ quantity over confirmed bookings`
holds in every state reachable through complete service operations
(reservation, cancellation, catalog edit, soft delete), i.e. at operation
boundaries; it is violated transiently inside a createReservation call
between the decrement and the record insert. -/
theorem conservation_at_operation_boundaries (s : String) (total : Nat)
    (ops : List Op) : Conservation (runOps (initSt s total) ops) :=
  (inv_runOps (initSt s total) ops (inv_initSt s total)).2.1

/-- C6.  Through every sequence of complete service operations
(createBooking with any arguments and injected faults, cancelBooking,
catalog capacity edits, soft deletes), the capacity record satisfies
`0 ≤ availableTickets ≤ totalTickets`. -/
theorem availableTickets_bounds_invariant (s : String) (total : Nat)
    (ops : List Op) :
    0 ≤ (runOps (initSt s total) ops).event.availableTickets ∧
    (runOps (initSt s total) ops).event.availableTickets ≤
      (runOps (initSt s total) ops).event.totalTickets := by
  have h := inv_runOps (initSt s total) ops (inv_initSt s total)
  have hc : (runOps (initSt s total) ops).event.totalTickets -
      (runOps (initSt s total) ops).event.availableTickets =
      (confirmedActiveCount (runOps (initSt s total) ops).bookings : Int) :=
    h.2.1
  exact ⟨h.1, by omega⟩

/-- C7.  A catalog edit that changes totalTickets adjusts availableTickets
by the same difference; when the adjusted value would be negative the edit
fails with Conflict and the event record is left unchanged. -/
theorem updateEvent_capacity_adjustment (st : St) (newTotal : Int)
    (hdel : st.event.deletedAt = none)
    (hne : newTotal ≠ st.event.totalTickets) :
    (0 ≤ st.event.availableTickets + (newTotal - st.event.totalTickets) →
      updateEvent st newTotal =
        (Except.ok { st.event with
            totalTickets := newTotal,
            availableTickets :=
              st.event.availableTickets + (newTotal - st.event.totalTickets),
            version := st.event.version + 1 },
          { st with event := { st.event with
            totalTickets := newTotal,
            availableTickets :=
              st.event.availableTickets + (newTotal - st.event.totalTickets),
            version := st.event.version + 1 } })) ∧
    (st.event.availableTickets + (newTotal - st.event.totalTickets) < 0 →
      updateEvent st newTotal =
        (Except.error (AppErr.conflict "Cannot reduce totalTickets"), st)) := by
  have hev : evFindById st.event false = some st.event := by
    simp [evFindById, hdel]
  constructor
  · intro hok
    unfold updateEvent
    rw [hev]
    dsimp only
    rw [if_pos hne, if_neg (not_lt.2 hok)]
  · intro hneg
    unfold updateEvent
    rw [hev]
    dsimp only
    rw [if_pos hne, if_pos hneg]

/-- Witness for C7 at concrete inputs: growing a 5-ticket resource to 8
succeeds and adjusts availableTickets; shrinking a resource with 4 of 5
tickets booked to 2 is refused with Conflict, state unchanged. -/
theorem updateEvent_capacity_adjustment_witness :
    (initSt "E" 5).event.deletedAt = none ∧
    (8 : Int) ≠ (initSt "E" 5).event.totalTickets ∧
    updateEvent (initSt "E" 5) 8 =
      (Except.ok ⟨"E", 8, 8, 1, none⟩,
        { event := ⟨"E", 8, 8, 1, none⟩, bookings := [] }) ∧
    updateEvent (createBooking (initSt "E" 5) 1 "k" 4 false).2 2 =
      (Except.error (AppErr.conflict "Cannot reduce totalTickets"),
        (createBooking (initSt "E" 5) 1 "k" 4 false).2) :=
  ⟨rfl, by decide,
    by
      have h := (updateEvent_capacity_adjustment (initSt "E" 5) 8 rfl
        (by decide)).1 (by decide)
      simpa using h,
    (updateEvent_capacity_adjustment
      (createBooking (initSt "E" 5) 1 "k" 4 false).2 2
      (by decide) (by decide)).2 (by decide)⟩

/-- C8.  cancelBooking fails with NotFound when the booking is absent, and
also fails with NotFound — never Forbidden — when it exists but belongs to
a different owner (the service has no role bypass: the ownership check is
unconditional), in both cases leaving the state unchanged. -/
theorem cancelBooking_ownership_notFound (st : St) (bid uid : Nat)
    (reason : Option String) (now : Nat) :
    (bkFindById st.bookings bid = none →
      cancelBooking st bid uid reason now =
        (Except.error (AppErr.notFound "Booking"), st)) ∧
    (∀ b, bkFindById st.bookings bid = some b → b.userId ≠ uid →
      cancelBooking st bid uid reason now =
        (Except.error (AppErr.notFound "Booking"), st)) := by
  constructor
  · intro hf
    unfold cancelBooking
    rw [hf]
  · intro b hf hne
    unfold cancelBooking
    rw [hf]
    dsimp only
    rw [if_pos hne]

/-- Witness for C8 at concrete inputs: an unknown booking id, and an
existing booking owned by user 5 cancelled by user 6. -/
theorem cancelBooking_ownership_notFound_witness :
    bkFindById (initSt "E" 2).bookings 0 = none ∧
    cancelBooking (initSt "E" 2) 0 6 none 9 =
      (Except.error (AppErr.notFound "Booking"), initSt "E" 2) ∧
    bkFindById (createBooking (initSt "E" 2) 5 "k" 1 false).2.bookings 0 =
      some (mkBooking 0 5 (generateTicketNumber "E" 1) "k") ∧
    cancelBooking (createBooking (initSt "E" 2) 5 "k" 1 false).2 0 6 none 9 =
      (Except.error (AppErr.notFound "Booking"),
        (createBooking (initSt "E" 2) 5 "k" 1 false).2) :=
  ⟨rfl,
    (cancelBooking_ownership_notFound (initSt "E" 2) 0 6 none 9).1 rfl,
    by decide,
    (cancelBooking_ownership_notFound
      (createBooking (initSt "E" 2) 5 "k" 1 false).2 0 6 none 9).2
      (mkBooking 0 5 (generateTicketNumber "E" 1) "k") (by decide) (by decide)⟩

/-- C9.  An unreachable cache store never fails a request: getAvailability
under a failing cache returns exactly what it returns under a cache miss
(falling back to the live Event document) and drops the write-back; the
idempotency middleware's ledger consultation degrades to letting the
request proceed; and cache invalidation degrades to a no-op instead of an
error. -/
theorem cacheFailure_degrades_never_fails {ρ : Type}
    (c : CacheStore EventAvailability) (st : St) (key : String) (now : Nat)
    (led : CacheStore ρ) (k2 : String) :
    ((getAvailability false c st key now).1 =
      (getAvailability true ⟨[]⟩ st key now).1) ∧
    ((getAvailability false c st key now).2 = c) ∧
    (st.event.deletedAt = none →
      (getAvailability false c st key now).1 = Except.ok
        { totalTickets := st.event.totalTickets
          availableTickets := st.event.availableTickets
          confirmedBookings :=
            st.event.totalTickets - st.event.availableTickets
          lastUpdated := now }) ∧
    idempotencyLedgerCheck false led k2 = MiddlewareOutcome.proceed ∧
    cacheServiceDel false c key = c := by
  have hget : cacheServiceGet false c key = (none : Option EventAvailability) :=
    rfl
  have hget2 : cacheServiceGet true (⟨[]⟩ : CacheStore EventAvailability) key
      = none := rfl
  refine ⟨?_, ?_, ?_, rfl, rfl⟩
  · unfold getAvailability
    rw [hget, hget2]
    cases hev : evFindById st.event false with
    | none => rfl
    | some ev => rfl
  · unfold getAvailability
    rw [hget]
    cases hev : evFindById st.event false with
    | none => rfl
    | some ev => rfl
  · intro hdel
    have hev : evFindById st.event false = some st.event := by
      simp [evFindById, hdel]
    unfold getAvailability
    rw [hget, hev]

/-- Witness for C9 at a concrete input: a failing cache holding a stale
entry is ignored, the live record is served, and the middleware proceeds. -/
theorem cacheFailure_degrades_never_fails_witness :
    (initSt "E" 3).event.deletedAt = none ∧
    (getAvailability false ⟨[("availability:E", ⟨9, 9, 0, 0⟩)]⟩
        (initSt "E" 3) "availability:E" 7).1 =
      Except.ok (⟨3, 3, 0, 7⟩ : EventAvailability) ∧
    idempotencyLedgerCheck false (⟨[("idem:k", 201)]⟩ : CacheStore Nat)
      "idem:k" = MiddlewareOutcome.proceed :=
  ⟨rfl,
    by
      have h := (cacheFailure_degrades_never_fails
        (ρ := Nat) ⟨[("availability:E", ⟨9, 9, 0, 0⟩)]⟩ (initSt "E" 3)
        "availability:E" 7 ⟨[]⟩ "idem:k").2.2.1 rfl
      simpa using h,
    (cacheFailure_degrades_never_fails
      (ρ := Nat) ⟨[("availability:E", ⟨9, 9, 0, 0⟩)]⟩ (initSt "E" 3)
      "availability:E" 7 ⟨[("idem:k", 201)]⟩ "idem:k").2.2.2.1⟩

/-- C10.  Every find-type read through the Booking or Event models applies
the soft-delete hook: without the `includeDeleted` option, no returned
document has a deletedAt marker — this covers `find`, `findOne`,
`findById`, and the find-and-update operations (a soft-deleted event
matches neither the conditional decrement nor the increment, which then
changes nothing); with `includeDeleted` set, the raw filter runs
unmodified. -/
theorem softDeleteHook_filters_reads :
    (∀ (bs : List BookingRec) (p : BookingRec → Bool) (b : BookingRec),
      b ∈ bkFindAll bs false p → b.deletedAt = none) ∧
    (∀ (bs : List BookingRec) (p : BookingRec → Bool) (b : BookingRec),
      bkFindOne bs false p = some b → b.deletedAt = none) ∧
    (∀ (bs : List BookingRec) (i : Nat) (b : BookingRec),
      bkFindById bs i = some b → b.deletedAt = none) ∧
    (∀ (e ev : EventRec), evFindById e false = some ev →
      ev.deletedAt = none) ∧
    (∀ (e : EventRec) (q : Nat), e.deletedAt ≠ none →
      atomicDecrementTickets e q = none ∧ incTickets e q = e) ∧
    (∀ (bs : List BookingRec) (p : BookingRec → Bool),
      bkFindAll bs true p = bs.filter p) := by
  refine ⟨?_, ?_, ?_, ?_, ?_, ?_⟩
  · intro bs p b hb
    have hmem := (List.mem_filter.1 hb).2
    simp [preFindFilter] at hmem
    exact hmem.2
  · intro bs p b hb
    have hfound := List.find?_some hb
    simp [preFindFilter] at hfound
    exact hfound.2
  · intro bs i b hb
    exact (bkFindById_some hb).2
  · intro e ev hev
    obtain ⟨rfl, hor⟩ := evFindById_some hev
    rcases hor with hb | hb
    · simp at hb
    · exact hb
  · intro e q hdel
    constructor
    · unfold atomicDecrementTickets
      rw [if_neg (fun hc => hdel hc.1)]
    · unfold incTickets
      rw [if_neg hdel]
  · intro bs p
    unfold bkFindAll
    apply List.filter_congr
    intro x hx
    simp [preFindFilter]

/-- Witness for C10 at a concrete input: among one live and one
soft-deleted booking, the hooked findOne returns only the live one, and
the hooked operations refuse a soft-deleted event. -/
theorem softDeleteHook_filters_reads_witness :
    bkFindOne [mkBooking 0 1 "t1" "k1",
        { mkBooking 1 1 "t2" "k2" with deletedAt := some 5 }] false
      (fun b => b.userId == 1) = some (mkBooking 0 1 "t1" "k1") ∧
    (mkBooking 0 1 "t1" "k1").deletedAt = none ∧
    (⟨"E", 3, 3, 0, some 5⟩ : EventRec).deletedAt ≠ none ∧
    atomicDecrementTickets ⟨"E", 3, 3, 0, some 5⟩ 1 = none :=
  ⟨by decide, by decide, by decide,
    (softDeleteHook_filters_reads.2.2.2.2.1 ⟨"E", 3, 3, 0, some 5⟩ 1
      (by decide)).1⟩

end Ticketing
